import Mathlib

/-!
Verification of the floating video-loop player core.

This file gives a shallow embedding, in Lean, of the decode/demux/render
pipeline of the player (the `D3D11Renderer` class and, for the audio output
sink comparison, `FFmpegPlayer`), and proves the stated properties of its
A/V-sync scheduler, clock anchoring, audio output sink, demux loop and
open/play control surface.

Modelling conventions:
- C++ `double` timestamps, delays and clocks are modelled as exact rationals
  (`ℚ`); byte counters and volumes as `ℤ`; tick counters as `ℕ`.
- The float multiplication in volume scaling
  (`int16(samples[i] * (volume / 100.0f))`) is modelled as exact rational
  multiplication truncated toward zero, `(s * volume).tdiv 100`.
- Blocking waits on condition variables are modelled by their exit
  condition: a theorem about the code after a wait loop carries the loop's
  negated guard as a hypothesis.
- Device calls (`SDL_PutAudioStreamData`, `SDL_GetAudioStreamQueued`,
  `QIODevice::write`, `QAudioSink::bytesFree`) are modelled by explicit
  response lists (oracles) consumed in call order.
- Ghost fields (counters of writes, thread launches, freed packets) record
  event occurrences that the C++ state does not store explicitly; they never
  influence control flow.
-/

namespace Loop

/-! ## A/V sync and render scheduler (D3D11Renderer::onRenderTimer) -/

/-- Per-session synchronization state of the renderer: the clock-anchor and
delay-feedback fields of `D3D11Renderer` that `onRenderTimer` reads and
writes (lines 1236-1385). -/
structure SyncState where
  audioClockValid : Bool
  videoClockValid : Bool
  audioStartPts : ℚ
  videoStartPts : ℚ
  avSyncOffset : ℚ
  audioClock : ℚ
  frameTimer : ℚ
  lastFramePts : ℚ
  lastDelay : ℚ
  consecutiveFastRender : ℕ
  deriving DecidableEq, Repr

/-- Constant `MIN_SYNC_THRESHOLD` (10 ms) of `onRenderTimer`. -/
def MIN_SYNC_THRESHOLD : ℚ := 1/100

/-- Constant `MAX_SYNC_THRESHOLD` (100 ms) of `onRenderTimer`. -/
def MAX_SYNC_THRESHOLD : ℚ := 1/10

/-- Constant `NOSYNC_THRESHOLD` (10 s) of `onRenderTimer`. -/
def NOSYNC_THRESHOLD : ℚ := 10

/-- Constant `FRAMEDUP_THRESHOLD` (100 ms) of `onRenderTimer`. -/
def FRAMEDUP_THRESHOLD : ℚ := 1/10

/-- Constant `MIN_DELAY` (1 ms) of `onRenderTimer`. -/
def MIN_DELAY : ℚ := 1/1000

/-- Constant `MAX_DELAY` (500 ms) of `onRenderTimer`. -/
def MAX_DELAY : ℚ := 1/2

/-- Qt's `qMax` on rationals: the larger argument. -/
def qMax (a b : ℚ) : ℚ :=
  if a ≤ b then b else a

/-- Qt's `qMin` on rationals: the smaller argument. -/
def qMin (a b : ℚ) : ℚ :=
  if b < a then b else a

/-- Qt's `qAbs` on rationals. -/
def qAbs (a : ℚ) : ℚ :=
  if a < 0 then -a else a

/-- Base inter-frame delay (lines 1285-1288): `framePts - lastFramePts`,
replaced by the previous delay when non-positive or above one second. -/
def baseDelay (framePts lastFramePts lastDelay : ℚ) : ℚ :=
  let d := framePts - lastFramePts
  if d ≤ 0 ∨ 1 < d then lastDelay else d

/-- Dynamic sync threshold (line 1291):
`qMax(MIN_SYNC_THRESHOLD, qMin(MAX_SYNC_THRESHOLD, delay))`. -/
def syncThresholdOf (delay : ℚ) : ℚ :=
  qMax MIN_SYNC_THRESHOLD (qMin MAX_SYNC_THRESHOLD delay)

/-- Catch-up drop loop (lines 1304-1315): while more than one frame is queued
and fewer than `fuel` frames have been dropped, drop the head frame as long as
the next frame's pts is still behind the reference clock.  The queue is the
list of queued frame timestamps, head first; the result is the remaining
queue and the number of dropped frames.  The source runs it with
`dropped < 5`, i.e. `fuel = 5`. -/
def dropCatchUp (refClock : ℚ) : ℕ → List ℚ → List ℚ × ℕ
  | 0, q => (q, 0)
  | fuel + 1, q =>
    match q with
    | a :: b :: rest =>
      if b < refClock then
        let r := dropCatchUp refClock fuel (b :: rest)
        (r.1, r.2 + 1)
      else (a :: b :: rest, 0)
    | q => (q, 0)

/-- Outcome of the dynamic-delay decision of one render tick: the adjusted
delay before the final clamp, the new consecutive-fast-render counter, the
frame queue after any catch-up drops, and the number of dropped frames. -/
structure RenderDecision where
  delay : ℚ
  counter : ℕ
  queue : List ℚ
  dropped : ℕ
  deriving DecidableEq, Repr

/-- Dynamic-delay synchronization strategy (lines 1296-1343), acting on the
base delay and the frame queue.  `diff = framePts - refClock` and
`lastDelay`/`counter` are the previous tick's recorded values. -/
def syncAdjust (audioClockValid : Bool) (refClock diff delay lastDelay : ℚ)
    (counter : ℕ) (q : List ℚ) : RenderDecision :=
  let threshold := syncThresholdOf delay
  if audioClockValid ∧ qAbs diff < NOSYNC_THRESHOLD then
    if diff ≤ -threshold then
      let delay' := qMax 0 (delay + diff)
      let counter' := counter + 1
      if 10 ≤ counter' ∧ diff < -1 then
        let r := dropCatchUp refClock 5 q
        ⟨delay', 0, r.1, r.2⟩
      else
        ⟨delay', counter', q, 0⟩
    else if threshold ≤ diff then
      let delay' :=
        if FRAMEDUP_THRESHOLD < lastDelay then delay + diff
        else qMin (2 * delay) (2 * delay + diff)
      ⟨delay', 0, q, 0⟩
    else
      ⟨delay, 0, q, 0⟩
  else
    ⟨delay, 0, q, 0⟩

/-- Final delay clamp (line 1348): `qBound(MIN_DELAY, delay, MAX_DELAY)`. -/
def clampDelay (d : ℚ) : ℚ :=
  qMax MIN_DELAY (qMin MAX_DELAY d)

/-- One invocation of `D3D11Renderer::onRenderTimer` (lines 1236-1385),
restricted to its synchronization effects.  Inputs: the init/playing/paused
guards, the sync state, the frame queue (presentation timestamps, head
first) and the current wall-clock time.  Output: the new sync state, the
new frame queue, and the pts of the presented frame, if any. -/
def renderTick (d3dInitialized playing paused : Bool) (s : SyncState)
    (q : List ℚ) (now : ℚ) : SyncState × List ℚ × Option ℚ :=
  if ¬d3dInitialized ∨ ¬playing ∨ paused then (s, q, none)
  else if 0 < s.frameTimer ∧ now < s.frameTimer then (s, q, none)
  else
    match q with
    | [] => (s, q, none)
    | framePts :: _ =>
      let s1 :=
        if s.videoClockValid then s
        else
          let s' := { s with videoStartPts := framePts, videoClockValid := true,
                             frameTimer := now, lastFramePts := framePts }
          if s.audioClockValid then
            { s' with avSyncOffset := s'.videoStartPts - s'.audioStartPts }
          else s'
      let refClock := s1.audioClock + s1.avSyncOffset
      let diff := framePts - refClock
      let delay := baseDelay framePts s1.lastFramePts s1.lastDelay
      let d := syncAdjust s1.audioClockValid refClock diff delay s1.lastDelay
                 s1.consecutiveFastRender q
      let delayC := clampDelay d.delay
      let newPts := d.queue.headI
      ({ s1 with lastFramePts := newPts, lastDelay := delayC,
                 consecutiveFastRender := d.counter, frameTimer := now + delayC },
       d.queue.tail, some newPts)

/-! ## Clock anchoring (onRenderTimer lines 1260-1272, processAudio lines
1598-1609, flush handling in the decode threads, and the play/stop/seek
resets) -/

/-- Clock-anchor fields of the renderer, with a ghost counter of
`avSyncOffset` writes since the last session boundary (reset or flush). -/
structure ClockAnchor where
  audioClockValid : Bool
  videoClockValid : Bool
  audioStartPts : ℚ
  videoStartPts : ℚ
  avSyncOffset : ℚ
  offsetWrites : ℕ
  deriving DecidableEq, Repr

/-- Events that touch the clock-anchor fields: a render tick observing the
head frame's pts (lines 1260-1272), an audio tick observing the head
buffer's pts (lines 1598-1609), the flush-marker handling of the video
decode thread (lines 1001-1002) and of the audio decode thread (lines
1170-1171), and the full reset performed by play, stop and seek. -/
inductive ClockEvent where
  | renderTick (framePts : ℚ)
  | audioTick (bufPts : ℚ)
  | flushVideo
  | flushAudio
  | sessionReset
  deriving DecidableEq, Repr

/-- Clock-anchor state after a full reset (play lines 678-682, stop lines
714-718, seek lines 805-809). -/
def resetAnchor : ClockAnchor :=
  { audioClockValid := false, videoClockValid := false, audioStartPts := 0,
    videoStartPts := 0, avSyncOffset := 0, offsetWrites := 0 }

/-- Effect of one event on the clock-anchor fields.  A render tick whose
video clock is already valid, and an audio tick whose audio clock is already
valid, leave all of these fields untouched (the first-frame blocks are
guarded by the valid flags).  The ghost `offsetWrites` counter is bumped at
each `avSyncOffset` assignment and cleared at each session boundary. -/
def clockStep (s : ClockAnchor) : ClockEvent → ClockAnchor
  | .renderTick framePts =>
    if s.videoClockValid then s
    else
      let s' := { s with videoStartPts := framePts, videoClockValid := true }
      if s.audioClockValid then
        { s' with avSyncOffset := s'.videoStartPts - s'.audioStartPts,
                  offsetWrites := s.offsetWrites + 1 }
      else s'
  | .audioTick bufPts =>
    if s.audioClockValid then s
    else
      let s' := { s with audioStartPts := bufPts, audioClockValid := true }
      if s.videoClockValid then
        { s' with avSyncOffset := s'.videoStartPts - s'.audioStartPts,
                  offsetWrites := s.offsetWrites + 1 }
      else s'
  | .flushVideo =>
    { s with videoClockValid := false, videoStartPts := 0, offsetWrites := 0 }
  | .flushAudio =>
    { s with audioClockValid := false, audioStartPts := 0, offsetWrites := 0 }
  | .sessionReset => resetAnchor

/-- Clock-anchor state reached from a reset by a sequence of events. -/
def runClock (evs : List ClockEvent) : ClockAnchor :=
  evs.foldl clockStep resetAnchor

/-- Anchor invariant: since the last session boundary the offset has been
written exactly once if both clocks are valid and never otherwise, and when
both clocks are valid it equals `videoStartPts - audioStartPts`. -/
def AnchorInv (s : ClockAnchor) : Prop :=
  (s.offsetWrites = if s.audioClockValid ∧ s.videoClockValid then 1 else 0)
  ∧ (s.audioClockValid ∧ s.videoClockValid →
      s.avSyncOffset = s.videoStartPts - s.audioStartPts)

/-! ## Audio output sink, SDL path (D3D11Renderer::processAudio lines
1568-1663) -/

/-- Decoded audio buffer (`AudioData`): resampled 16-bit stereo samples, a
presentation timestamp, and the volume-applied flag.  `data` holds the
int16 sample values; the byte size of the buffer is `2 * data.length`. -/
structure AudioData where
  data : List ℤ
  pts : ℚ
  volumeAdjusted : Bool
  deriving DecidableEq, Repr

/-- Volume scaling of one int16 sample (lines 1613-1618):
`int16(sample * (volume / 100.0f))`, modelled as exact rational
multiplication truncated toward zero. -/
def scaleSample (volume s : ℤ) : ℤ :=
  (s * volume).tdiv 100

/-- Per-buffer volume block (lines 1611-1620 and 1686-1696): scale the
samples and set the volume-applied flag, but only when the volume is below
100 and the flag is not yet set. -/
def volumeAdjustBuffer (volume : ℤ) (ad : AudioData) : AudioData :=
  if volume < 100 ∧ ad.volumeAdjusted = false then
    { ad with data := ad.data.map (scaleSample volume), volumeAdjusted := true }
  else ad

/-- State read and written by one audio-output tick on the SDL path. -/
structure AudioTickState where
  audioClockValid : Bool
  videoClockValid : Bool
  audioStartPts : ℚ
  videoStartPts : ℚ
  avSyncOffset : ℚ
  audioClock : ℚ
  audioWrittenBytes : ℤ
  volume : ℤ
  deriving DecidableEq, Repr

/-- Constant `maxQueued` of `processAudio` (line 1590):
`44100 * 2 * 2 / 5` bytes, 200 ms of output. -/
def maxQueuedBytes : ℤ := 44100 * 2 * 2 / 5

/-- First-buffer clock anchor of the audio tick (lines 1599-1609). -/
def audioAnchor (st : AudioTickState) (pts : ℚ) : AudioTickState :=
  if st.audioClockValid then st
  else
    let st' := { st with audioStartPts := pts, audioClockValid := true }
    if st.videoClockValid then
      { st' with avSyncOffset := st'.videoStartPts - st'.audioStartPts }
    else st'

/-- Write loop of the SDL audio tick (lines 1595-1631).  `queued` is the
latest `SDL_GetAudioStreamQueued` reading; `dev` is the device oracle: for
each `SDL_PutAudioStreamData` call, whether it succeeded and, if so, the
queued-bytes reading taken right after it.  An exhausted oracle behaves
like a failed put.  On a successful put the head buffer's byte size is
added to the written-bytes counter and the buffer is dequeued; on a failed
put the loop breaks, leaving the (possibly volume-stamped) head buffer in
place. -/
def audioWriteLoop (st : AudioTickState) : List AudioData → ℤ →
    List (Bool × ℤ) → AudioTickState × List AudioData × ℤ
  | [], queued, _ => (st, [], queued)
  | ad :: rest, queued, dev =>
    if maxQueuedBytes ≤ queued then (st, ad :: rest, queued)
    else
      let st1 := audioAnchor st ad.pts
      let ad1 := volumeAdjustBuffer st1.volume ad
      match dev with
      | [] => (st1, ad1 :: rest, queued)
      | (ok, newQueued) :: devRest =>
        if ok then
          audioWriteLoop
            { st1 with audioWrittenBytes :=
                st1.audioWrittenBytes + 2 * (ad1.data.length : ℤ) }
            rest newQueued devRest
        else (st1, ad1 :: rest, queued)

/-- One SDL-path audio-output tick (lines 1568-1663): skip the write loop
when the device already holds more than 200 ms of data, then derive the
audio clock from played bytes.  Returns the new state, the remaining audio
queue and the final queued-bytes reading. -/
def processAudioSdl (st : AudioTickState) (queue : List AudioData)
    (initQueued : ℤ) (dev : List (Bool × ℤ)) :
    AudioTickState × List AudioData × ℤ :=
  let r :=
    if maxQueuedBytes < initQueued then (st, queue, initQueued)
    else audioWriteLoop st queue initQueued dev
  let st1 := r.1
  if st1.audioClockValid then
    let played := st1.audioWrittenBytes - r.2.2
    let played := if played < 0 then 0 else played
    ({ st1 with audioClock := st1.audioStartPts + (played : ℚ) / 176400 },
     r.2.1, r.2.2)
  else (st1, r.2.1, r.2.2)

/-! ## Audio output sink, Qt fallback path (processAudio lines 1665-1731) -/

/-- Byte-level view of the head audio buffer used by the Qt sink: `bytes`
are the raw bytes of `ad.data`. -/
structure QtAudioBuffer where
  bytes : List ℤ
  pts : ℚ
  volumeAdjusted : Bool
  deriving DecidableEq, Repr

/-- Inner write-retry loop of the Qt sink (lines 1699-1715).  The oracle
lists, per iteration, the `bytesFree` reading and the byte count the device
write returned.  Returns the final `(offset, remaining)` pair. -/
def qtWriteLoop : List (ℤ × ℤ) → ℤ → ℤ → ℤ × ℤ
  | [], offset, remaining => (offset, remaining)
  | (bytesFree, written) :: rest, offset, remaining =>
    if remaining ≤ 0 then (offset, remaining)
    else if bytesFree ≤ 0 then (offset, remaining)
    else if written ≤ 0 then (offset, remaining)
    else qtWriteLoop rest (offset + written) (remaining - written)

/-- Device contract for the Qt write loop: each write call returns at most
`min bytesFree remaining` bytes, where `remaining` is the running remainder
(the source requests `toWrite = qMin(bytesFree, remaining)` and
`QIODevice::write` returns at most its argument). -/
def qtOracleOk : List (ℤ × ℤ) → ℤ → Bool
  | [], _ => true
  | (bytesFree, written) :: rest, remaining =>
    written ≤ bytesFree && written ≤ remaining && qtOracleOk rest (remaining - written)

/-- Head-buffer handling of one Qt-sink tick (lines 1680-1724), after the
volume block: run the write-retry loop on the head buffer's bytes; if it
was fully written, dequeue it, otherwise keep the unwritten remainder in
place at the head.  Returns the new queue and the offset (bytes consumed
from the head buffer). -/
def qtProcessHead (ad : QtAudioBuffer) (rest : List QtAudioBuffer)
    (oracle : List (ℤ × ℤ)) : List QtAudioBuffer × ℤ :=
  let r := qtWriteLoop oracle 0 (ad.bytes.length : ℤ)
  if r.2 = 0 then (rest, r.1)
  else ({ ad with bytes := ad.bytes.drop r.1.toNat } :: rest, r.1)

/-! ## Audio output sink of the legacy player (FFmpegPlayer::processAudio
lines 760-781) -/

/-- Decoded audio frame of the legacy player: int16 samples and a
presentation timestamp (byte size is `2 * data.length`). -/
structure FFAudioFrame where
  data : List ℤ
  pts : ℚ
  deriving DecidableEq, Repr

/-- One `FFmpegPlayer::processAudio` tick: drain every available frame,
scale by `samples[i] * volume / 100` (integer arithmetic) when the volume
is below 100, hand the bytes to the device, and advance the audio clock by
the full buffer size.  The return value of `m_audioDevice->write` is
ignored by the source, so the function only records, per frame, how many
bytes the device actually accepted (`accepts` oracle, clamped to the frame
size); nothing is retained for a later retry.  Returns the total byte
count accepted by the device and the final audio clock. -/
def ffProcessAudio (volume : ℤ) : List FFAudioFrame → List ℤ → ℚ → ℤ × ℚ
  | [], _, clock => (0, clock)
  | f :: fs, accepts, _clock =>
    let size : ℤ := 2 * (f.data.length : ℤ)
    let a := accepts.headD size
    let accepted := if a ≤ size then a else size
    let clock' := f.pts + (size : ℚ) / (44100 * 2 * 2)
    let r := ffProcessAudio volume fs accepts.tail clock'
    (accepted + r.1, r.2)

/-- Total decoded byte count of a frame list of the legacy player. -/
def ffDecodedBytes (frames : List FFAudioFrame) : ℤ :=
  (frames.map (fun f => 2 * (f.data.length : ℤ))).sum

/-! ## Demux loop (D3D11Renderer::demuxThread lines 848-958) -/

/-- Result of one `av_read_frame` call, as seen by the demux loop. -/
inductive ReadResult where
  | pkt (streamIndex : ℤ)
  | eof
  | err
  deriving DecidableEq, Repr

/-- Whether the demux while-loop continues or exits after an iteration. -/
inductive DemuxOutcome where
  | continueLoop
  | exitLoop
  deriving DecidableEq, Repr

/-- Demux-loop state: the two packet queues (`none` is the flush marker),
the `running`/`seeking` flags as observed at the enqueue decision, and
ghost counters for emitted end-of-file signals, seeks back to zero, and
packets freed instead of enqueued. -/
structure DemuxState where
  videoPacketQueue : List (Option ℤ)
  audioPacketQueue : List (Option ℤ)
  running : Bool
  seeking : Bool
  endOfFileEmitted : Bool
  seekZeroCount : ℕ
  freedPackets : ℕ
  deriving DecidableEq, Repr

/-- One iteration of the demux read-and-dispatch body (lines 884-949) on a
read result.  At end of stream with loop enabled the container is sought
back to zero and a `none` flush marker is enqueued into both packet queues
unconditionally; with loop disabled `endOfFile` is emitted and the loop
exits.  Any other read failure exits the loop silently.  A packet is routed
by stream index; the queue-full wait is modelled by its exit condition (see
the corresponding theorems), after which the packet is enqueued exactly
when `running ∧ ¬seeking` and freed otherwise. -/
def demuxReadStep (loop : Bool) (videoStreamIndex audioStreamIndex : ℤ)
    (st : DemuxState) : ReadResult → DemuxState × DemuxOutcome
  | .eof =>
    if loop then
      ({ st with videoPacketQueue := st.videoPacketQueue ++ [none],
                 audioPacketQueue := st.audioPacketQueue ++ [none],
                 seekZeroCount := st.seekZeroCount + 1 }, .continueLoop)
    else
      ({ st with endOfFileEmitted := true }, .exitLoop)
  | .err => (st, .exitLoop)
  | .pkt i =>
    if i = videoStreamIndex then
      if st.running ∧ st.seeking = false then
        ({ st with videoPacketQueue := st.videoPacketQueue ++ [some i] },
         .continueLoop)
      else
        ({ st with freedPackets := st.freedPackets + 1 }, .continueLoop)
    else if i = audioStreamIndex then
      if st.running ∧ st.seeking = false then
        ({ st with audioPacketQueue := st.audioPacketQueue ++ [some i] },
         .continueLoop)
      else
        ({ st with freedPackets := st.freedPackets + 1 }, .continueLoop)
    else
      ({ st with freedPackets := st.freedPackets + 1 }, .continueLoop)

/-- Frame-queue capacity `MAX_FRAME_QUEUE` of the video decode thread. -/
def MAX_FRAME_QUEUE : ℕ := 3

/-- Frame enqueue of the video decode thread (lines 1109-1120): after the
queue-full wait (modelled by its exit condition in the theorems), the frame
is enqueued exactly when `running` is still true.  Returns the new frame
queue and whether the frame was enqueued. -/
def frameEnqueueStep (running : Bool) (q : List ℚ) (pts : ℚ) :
    List ℚ × Bool :=
  if running then (q ++ [pts], true) else (q, false)

/-! ## File opening (D3D11Renderer::openFile lines 374-484) -/

/-- Decode mode selected by the caller (`VideoRendererBase::DecodeMode`). -/
inductive DecodeMode where
  | Auto
  | Hardware
  | Software
  deriving DecidableEq, Repr

/-- Outcome of the video-decoder part of `openFile`. -/
structure OpenOutcome where
  success : Bool
  errorEmitted : Bool
  fileClosed : Bool
  hwAttempted : Bool
  usingHardware : Bool
  deriving DecidableEq, Repr

/-- Video-decoder initialization of `openFile` (lines 418-446): in Software
mode hardware init is skipped entirely; otherwise it is attempted, and on
failure a Hardware-only caller gets an emitted error, a closed file and a
false return, while an Auto caller falls back to software decoding.  The
remaining work of `openFile` (the `avcodec_open2` call and everything after
it) is abstracted by `restOk`; when it fails, `openFile` emits an error,
closes the file and returns false (lines 438-442). -/
def openFileVideoInit (mode : DecodeMode) (hwInitOk restOk : Bool) :
    OpenOutcome :=
  match mode with
  | .Software =>
    if restOk then ⟨true, false, false, false, false⟩
    else ⟨false, true, true, false, false⟩
  | _ =>
    if hwInitOk then
      if restOk then ⟨true, false, false, true, true⟩
      else ⟨false, true, true, true, true⟩
    else if mode = DecodeMode.Hardware then ⟨false, true, true, true, false⟩
    else
      if restOk then ⟨true, false, false, true, false⟩
      else ⟨false, true, true, true, false⟩

/-! ## Play control (D3D11Renderer::play lines 629-695) -/

/-- Player state touched by `play`: the playing/paused flags, a ghost
counter of worker-thread launches, the per-session sync state, and the two
periodic-tick timers. -/
structure PlayerState where
  playing : Bool
  paused : Bool
  threadStarts : ℕ
  audioClockValid : Bool
  videoClockValid : Bool
  audioStartPts : ℚ
  videoStartPts : ℚ
  avSyncOffset : ℚ
  audioClock : ℚ
  audioWrittenBytes : ℤ
  skipRenderCount : ℕ
  frameTimer : ℚ
  lastFramePts : ℚ
  lastDelay : ℚ
  consecutiveFastRender : ℕ
  renderTimerActive : Bool
  audioTimerActive : Bool
  deriving DecidableEq, Repr

/-- The `play` slot (lines 629-695): a no-op while already playing and not
paused; otherwise the worker threads are launched only when not yet
playing, and the playing/paused flags, the whole per-session sync state and
the two timers are set unconditionally. -/
def playCall (s : PlayerState) : PlayerState :=
  if s.playing ∧ s.paused = false then s
  else
    let s1 := if s.playing then s else { s with threadStarts := s.threadStarts + 1 }
    { s1 with playing := true, paused := false,
              audioClockValid := false, videoClockValid := false,
              audioStartPts := 0, videoStartPts := 0, avSyncOffset := 0,
              audioClock := 0, audioWrittenBytes := 0, skipRenderCount := 0,
              frameTimer := 0, lastFramePts := 0, lastDelay := 33/1000,
              consecutiveFastRender := 0,
              renderTimerActive := true, audioTimerActive := true }

/-! ## Concrete example states used by the witnesses -/

/-- Demux state with empty queues, running and not seeking. -/
def demuxIdleState : DemuxState :=
  { videoPacketQueue := [], audioPacketQueue := [], running := true,
    seeking := false, endOfFileEmitted := false, seekZeroCount := 0,
    freedPackets := 0 }

/-- Demux state whose video packet queue holds one packet, running and not
seeking. -/
def demuxFullState : DemuxState :=
  { videoPacketQueue := [some 0], audioPacketQueue := [], running := true,
    seeking := false, endOfFileEmitted := false, seekZeroCount := 0,
    freedPackets := 0 }

/-- A playing, paused player session with seven recorded thread launches
and a populated sync state. -/
def pausedPlayerState : PlayerState :=
  { playing := true, paused := true, threadStarts := 7,
    audioClockValid := true, videoClockValid := true, audioStartPts := 4,
    videoStartPts := 5, avSyncOffset := 1, audioClock := 9,
    audioWrittenBytes := 123, skipRenderCount := 2, frameTimer := 8,
    lastFramePts := 6, lastDelay := 1/4, consecutiveFastRender := 3,
    renderTimerActive := false, audioTimerActive := false }

/-! ## Theorems -/

/-- Qt's `qMax` agrees with the lattice `max` on rationals. -/
theorem qMax_eq_max (a b : ℚ) : qMax a b = max a b := by
  by_cases h : a ≤ b <;> simp [qMax, max_def, h]

/-- Qt's `qMin` agrees with the lattice `min` on rationals. -/
theorem qMin_eq_min (a b : ℚ) : qMin a b = min a b := by
  by_cases h : b < a
  · simp [qMin, min_def, h, not_le_of_lt h]
  · simp [qMin, min_def, h, le_of_not_lt h]

/-- Qt's `qAbs` agrees with the absolute value on rationals. -/
theorem qAbs_eq_abs (a : ℚ) : qAbs a = |a| := by
  by_cases h : a < 0
  · simp [qAbs, h, abs_of_neg h]
  · simp [qAbs, h, abs_of_nonneg (le_of_not_lt h)]

/-- The catch-up loop never drops more frames than its fuel allows. -/
theorem dropCatchUp_dropped_le (refClock : ℚ) :
    ∀ (fuel : ℕ) (q : List ℚ), (dropCatchUp refClock fuel q).2 ≤ fuel := by
  intro fuel
  induction fuel with
  | zero => intro q; simp [dropCatchUp]
  | succ n ih =>
    intro q
    match q with
    | [] => simp [dropCatchUp]
    | [a] => simp [dropCatchUp]
    | a :: b :: rest =>
      by_cases h : b < refClock
      · simpa [dropCatchUp, h] using Nat.succ_le_succ (ih (b :: rest))
      · simp [dropCatchUp, h]

/-- The catch-up loop removes exactly the dropped count from the front of
the queue. -/
theorem dropCatchUp_queue_eq (refClock : ℚ) :
    ∀ (fuel : ℕ) (q : List ℚ),
      (dropCatchUp refClock fuel q).1 = q.drop (dropCatchUp refClock fuel q).2 := by
  intro fuel
  induction fuel with
  | zero => intro q; simp [dropCatchUp]
  | succ n ih =>
    intro q
    match q with
    | [] => simp [dropCatchUp]
    | [a] => simp [dropCatchUp]
    | a :: b :: rest =>
      by_cases h : b < refClock
      · simpa [dropCatchUp, h] using ih (b :: rest)
      · simp [dropCatchUp, h]

/-- The catch-up loop never empties a nonempty queue. -/
theorem dropCatchUp_ne_nil (refClock : ℚ) :
    ∀ (fuel : ℕ) (q : List ℚ), q ≠ [] → (dropCatchUp refClock fuel q).1 ≠ [] := by
  intro fuel
  induction fuel with
  | zero => intro q hq; simpa [dropCatchUp] using hq
  | succ n ih =>
    intro q hq
    match q with
    | [a] => simp [dropCatchUp]
    | a :: b :: rest =>
      by_cases h : b < refClock
      · simpa [dropCatchUp, h] using ih (b :: rest) (by simp)
      · simp [dropCatchUp, h]

/-- Every frame dropped by the catch-up loop was dropped while the next
queued frame's pts was still behind the reference clock. -/
theorem dropCatchUp_dropped_behind (refClock : ℚ) :
    ∀ (fuel : ℕ) (q : List ℚ) (i : ℕ), i < (dropCatchUp refClock fuel q).2 →
      ∃ p, q.get? (i + 1) = some p ∧ p < refClock := by
  intro fuel
  induction fuel with
  | zero => intro q i hi; simp [dropCatchUp] at hi
  | succ n ih =>
    intro q i hi
    match q with
    | [] => simp [dropCatchUp] at hi
    | [a] => simp [dropCatchUp] at hi
    | a :: b :: rest =>
      by_cases h : b < refClock
      · simp only [dropCatchUp, if_pos h] at hi
        match i with
        | 0 => exact ⟨b, rfl, h⟩
        | j + 1 =>
          obtain ⟨p, hp, hpr⟩ := ih (b :: rest) j (Nat.lt_of_succ_lt_succ hi)
          exact ⟨p, hp, hpr⟩
      · simp [dropCatchUp, h] at hi

/-- C3: when the audio clock is valid, the discrepancy is below the 10 s
no-sync threshold and the video is behind by at least the sync threshold,
the delay shrinks to `max 0 (delay + diff)` and the fast-render counter
increments; frames are dropped only when the incremented counter has
reached 10 and the lag exceeds one second, at most 5 per event, only while
the next frame's pts is behind the reference clock, never emptying the
queue; and the counter is reset after such an event. -/
theorem C3_behind_catchup (refClock diff delay lastDelay : ℚ) (counter : ℕ)
    (q : List ℚ) (hq : q ≠ [])
    (hns : |diff| < NOSYNC_THRESHOLD) (hb : diff ≤ -syncThresholdOf delay) :
    (syncAdjust true refClock diff delay lastDelay counter q).delay
        = max 0 (delay + diff)
    ∧ (¬(10 ≤ counter + 1 ∧ diff < -1) →
        (syncAdjust true refClock diff delay lastDelay counter q).counter = counter + 1
        ∧ (syncAdjust true refClock diff delay lastDelay counter q).queue = q
        ∧ (syncAdjust true refClock diff delay lastDelay counter q).dropped = 0)
    ∧ ((10 ≤ counter + 1 ∧ diff < -1) →
        (syncAdjust true refClock diff delay lastDelay counter q).counter = 0
        ∧ (syncAdjust true refClock diff delay lastDelay counter q).dropped ≤ 5
        ∧ (syncAdjust true refClock diff delay lastDelay counter q).queue
            = q.drop (syncAdjust true refClock diff delay lastDelay counter q).dropped
        ∧ (syncAdjust true refClock diff delay lastDelay counter q).queue ≠ []
        ∧ ∀ i < (syncAdjust true refClock diff delay lastDelay counter q).dropped,
            ∃ p, q.get? (i + 1) = some p ∧ p < refClock) := by
  have hns' : qAbs diff < NOSYNC_THRESHOLD := by rwa [qAbs_eq_abs]
  have hstep : syncAdjust true refClock diff delay lastDelay counter q
      = if 10 ≤ counter + 1 ∧ diff < -1 then
          ⟨qMax 0 (delay + diff), 0, (dropCatchUp refClock 5 q).1,
           (dropCatchUp refClock 5 q).2⟩
        else ⟨qMax 0 (delay + diff), counter + 1, q, 0⟩ := by
    simp [syncAdjust, hns', hb]
  by_cases ht : 10 ≤ counter + 1 ∧ diff < -1
  · rw [hstep, if_pos ht]
    refine ⟨qMax_eq_max 0 (delay + diff), fun hc => absurd ht hc, fun _ => ?_⟩
    exact ⟨rfl, dropCatchUp_dropped_le refClock 5 q,
      dropCatchUp_queue_eq refClock 5 q, dropCatchUp_ne_nil refClock 5 q hq,
      fun i hi => dropCatchUp_dropped_behind refClock 5 q i hi⟩
  · rw [hstep, if_neg ht]
    exact ⟨qMax_eq_max 0 (delay + diff), fun _ => ⟨rfl, rfl, rfl⟩,
      fun hc => absurd hc ht⟩

/-- Witness for C3: a session lagging two seconds behind the reference
clock with nine prior fast renders; the tenth triggers the catch-up, and
the queue `[5, 6, 20]` with reference clock 10 loses exactly its head. -/
theorem C3_behind_catchup_witness :
    ([(5 : ℚ), 6, 20] ≠ [])
    ∧ |(-2 : ℚ)| < NOSYNC_THRESHOLD
    ∧ (-2 : ℚ) ≤ -syncThresholdOf (1/30)
    ∧ ((10 ≤ 9 + 1 ∧ (-2 : ℚ) < -1) →
        (syncAdjust true 10 (-2) (1/30) (1/30) 9 [5, 6, 20]).counter = 0
        ∧ (syncAdjust true 10 (-2) (1/30) (1/30) 9 [5, 6, 20]).dropped ≤ 5
        ∧ (syncAdjust true 10 (-2) (1/30) (1/30) 9 [5, 6, 20]).queue
            = [(5 : ℚ), 6, 20].drop (syncAdjust true 10 (-2) (1/30) (1/30) 9 [5, 6, 20]).dropped
        ∧ (syncAdjust true 10 (-2) (1/30) (1/30) 9 [5, 6, 20]).queue ≠ []
        ∧ ∀ i < (syncAdjust true 10 (-2) (1/30) (1/30) 9 [5, 6, 20]).dropped,
            ∃ p, [(5 : ℚ), 6, 20].get? (i + 1) = some p ∧ p < 10) := by
  have h1 : ([(5 : ℚ), 6, 20] : List ℚ) ≠ [] := by simp
  have h2 : |(-2 : ℚ)| < NOSYNC_THRESHOLD := by
    rw [abs_of_neg (by norm_num : (-2 : ℚ) < 0)]
    norm_num [NOSYNC_THRESHOLD]
  have h3 : (-2 : ℚ) ≤ -syncThresholdOf (1/30) := by
    norm_num [syncThresholdOf, qMax, qMin, MIN_SYNC_THRESHOLD, MAX_SYNC_THRESHOLD]
  exact ⟨h1, h2, h3,
    (C3_behind_catchup 10 (-2) (1/30) (1/30) 9 [5, 6, 20] h1 h2 h3).2.2⟩

/-- C1 (code bug): in the video-ahead branch with a short previous delay,
the doubled delay is supposed to be capped at the base delay plus `diff`,
but the source caps the already-doubled value against itself plus a
positive `diff` (`delay = qMin(delay, delay + diff)` right after
`delay = 2 * delay`), a no-op.  With base delay 0.2 s, `diff` 0.1 s (at
the sync threshold) and previous delay 0.05 s, the decision yields delay
0.4 s, exceeding the claimed bound of base delay plus `diff` = 0.3 s. -/
theorem C1_delay_cap_dead_code :
    (syncAdjust true (101/10) (1/10) (1/5) (1/20) 0 [102/10]).delay = 2/5
    ∧ ¬((2 : ℚ)/5 ≤ 1/5 + 1/10) := by
  constructor
  · norm_num [syncAdjust, syncThresholdOf, qAbs, qMax, qMin, MIN_SYNC_THRESHOLD,
      MAX_SYNC_THRESHOLD, NOSYNC_THRESHOLD, FRAMEDUP_THRESHOLD]
  · norm_num

/-- The anchor invariant holds in the freshly reset state. -/
theorem anchorInv_reset : AnchorInv resetAnchor := by
  constructor
  · simp [resetAnchor, AnchorInv]
  · simp [resetAnchor]

/-- Every clock event preserves the anchor invariant. -/
theorem clockStep_inv (s : ClockAnchor) (e : ClockEvent) (h : AnchorInv s) :
    AnchorInv (clockStep s e) := by
  obtain ⟨h1, h2⟩ := h
  cases e with
  | renderTick pts =>
    by_cases hv : s.videoClockValid
    · exact ⟨by simpa [clockStep, hv] using h1, by simpa [clockStep, hv] using h2⟩
    · by_cases ha : s.audioClockValid
      · constructor
        · simp [hv, ha] at h1
          simp [clockStep, hv, ha, h1]
        · intro _
          simp [clockStep, hv, ha]
      · constructor
        · simp [hv, ha] at h1
          simp [clockStep, hv, ha, h1]
        · intro hc
          simp [clockStep, hv, ha] at hc
  | audioTick pts =>
    by_cases ha : s.audioClockValid
    · exact ⟨by simpa [clockStep, ha] using h1, by simpa [clockStep, ha] using h2⟩
    · by_cases hv : s.videoClockValid
      · constructor
        · simp [hv, ha] at h1
          simp [clockStep, hv, ha, h1]
        · intro _
          simp [clockStep, hv, ha]
      · constructor
        · simp [hv, ha] at h1
          simp [clockStep, hv, ha, h1]
        · intro hc
          simp [clockStep, hv, ha] at hc
  | flushVideo =>
    constructor
    · simp [clockStep]
    · intro hc
      simp [clockStep] at hc
  | flushAudio =>
    constructor
    · simp [clockStep]
    · intro hc
      simp [clockStep] at hc
  | sessionReset => exact anchorInv_reset

/-- The anchor invariant is preserved along any event sequence. -/
theorem foldl_clockStep_inv :
    ∀ (evs : List ClockEvent) (s : ClockAnchor), AnchorInv s →
      AnchorInv (evs.foldl clockStep s) := by
  intro evs
  induction evs with
  | nil => intro s h; simpa using h
  | cons e rest ih =>
    intro s h
    exact ih (clockStep s e) (clockStep_inv s e h)

/-- C2: between session boundaries (stop/seek/play resets and loop-wrap
flush markers) `avSyncOffset` is written exactly once, at the step where
the second of the two clocks becomes valid, with the value
`videoStartPts - audioStartPts`; render and audio ticks whose own clock is
already valid leave the anchor state (and in particular `avSyncOffset`)
completely untouched. -/
theorem C2_avSyncOffset_once :
    (∀ evs : List ClockEvent, AnchorInv (runClock evs))
    ∧ (∀ (s : ClockAnchor) (pts : ℚ), s.videoClockValid = true →
        clockStep s (ClockEvent.renderTick pts) = s)
    ∧ (∀ (s : ClockAnchor) (pts : ℚ), s.audioClockValid = true →
        clockStep s (ClockEvent.audioTick pts) = s) := by
  refine ⟨fun evs => foldl_clockStep_inv evs resetAnchor anchorInv_reset,
    fun s pts hv => ?_, fun s pts ha => ?_⟩
  · simp [clockStep, hv]
  · simp [clockStep, ha]

/-- Witness for C2: a run in which the audio clock anchors first and the
render tick then writes the offset once; and a both-valid state on which a
further render tick is the identity. -/
theorem C2_avSyncOffset_once_witness :
    AnchorInv (runClock [ClockEvent.audioTick 3, ClockEvent.renderTick 5])
    ∧ ({ audioClockValid := true, videoClockValid := true, audioStartPts := 3,
         videoStartPts := 5, avSyncOffset := 2, offsetWrites := 1 }
          : ClockAnchor).videoClockValid = true
    ∧ clockStep
        { audioClockValid := true, videoClockValid := true, audioStartPts := 3,
          videoStartPts := 5, avSyncOffset := 2, offsetWrites := 1 }
        (ClockEvent.renderTick 7)
      = { audioClockValid := true, videoClockValid := true, audioStartPts := 3,
          videoStartPts := 5, avSyncOffset := 2, offsetWrites := 1 } :=
  ⟨C2_avSyncOffset_once.1 [ClockEvent.audioTick 3, ClockEvent.renderTick 5],
   rfl,
   C2_avSyncOffset_once.2.1
     { audioClockValid := true, videoClockValid := true, audioStartPts := 3,
       videoStartPts := 5, avSyncOffset := 2, offsetWrites := 1 } 7 rfl⟩

/-- Bridging identity for the played-bytes clamp, in cast form. -/
theorem ite_played_cast (w q : ℤ) :
    (if w < q then (0 : ℚ) else (w : ℚ) - (q : ℚ)) = 0 ⊔ ((w : ℚ) - (q : ℚ)) := by
  rcases lt_or_le w q with h | h
  · have hc : (w : ℚ) - q ≤ 0 := by
      have h' : (w : ℚ) < q := by exact_mod_cast h
      linarith
    simp [h, sup_eq_left.mpr hc]
  · have hc : (0 : ℚ) ≤ (w : ℚ) - q := by
      have h' : (q : ℚ) ≤ w := by exact_mod_cast h
      linarith
    simp [not_lt.mpr h, sup_eq_right.mpr hc]

/-- C4: whenever the audio clock is valid at the end of an SDL audio tick,
it equals `audioStartPts + playedBytes / 176400` where `playedBytes` is the
written-bytes counter minus the device's queued bytes, floored at zero, and
176400 is the byte rate of the fixed 44100 Hz stereo 16-bit output. -/
theorem C4_audio_clock_played_bytes (st : AudioTickState)
    (queue : List AudioData) (initQueued : ℤ) (dev : List (Bool × ℤ))
    (hv : (processAudioSdl st queue initQueued dev).1.audioClockValid = true) :
    (processAudioSdl st queue initQueued dev).1.audioClock
      = (processAudioSdl st queue initQueued dev).1.audioStartPts
        + (((max 0 ((processAudioSdl st queue initQueued dev).1.audioWrittenBytes
              - (processAudioSdl st queue initQueued dev).2.2)) : ℤ) : ℚ) / 176400
    ∧ (176400 : ℤ) = 44100 * 2 * 2 := by
  refine ⟨?_, by norm_num⟩
  by_cases hq : maxQueuedBytes < initQueued
  · by_cases hvv : st.audioClockValid
    · simp [processAudioSdl, hq, hvv, ite_played_cast]
    · exfalso
      simp [processAudioSdl, hq, hvv] at hv
  · by_cases hvv : (audioWriteLoop st queue initQueued dev).1.audioClockValid
    · simp [processAudioSdl, hq, hvv, ite_played_cast]
    · exfalso
      simp [processAudioSdl, hq, hvv] at hv

/-- Witness for C4: a tick with a valid clock, 176400 written bytes and an
empty device queue advances the clock to `audioStartPts + 1`. -/
theorem C4_audio_clock_played_bytes_witness :
    ((processAudioSdl
        { audioClockValid := true, videoClockValid := false, audioStartPts := 2,
          videoStartPts := 0, avSyncOffset := 0, audioClock := 0,
          audioWrittenBytes := 176400, volume := 100 }
        [] 0 []).1.audioClockValid = true)
    ∧ (processAudioSdl
        { audioClockValid := true, videoClockValid := false, audioStartPts := 2,
          videoStartPts := 0, avSyncOffset := 0, audioClock := 0,
          audioWrittenBytes := 176400, volume := 100 }
        [] 0 []).1.audioClock
      = (processAudioSdl
          { audioClockValid := true, videoClockValid := false, audioStartPts := 2,
            videoStartPts := 0, avSyncOffset := 0, audioClock := 0,
            audioWrittenBytes := 176400, volume := 100 }
          [] 0 []).1.audioStartPts
        + (((max 0 ((processAudioSdl
              { audioClockValid := true, videoClockValid := false, audioStartPts := 2,
                videoStartPts := 0, avSyncOffset := 0, audioClock := 0,
                audioWrittenBytes := 176400, volume := 100 }
              [] 0 []).1.audioWrittenBytes
            - (processAudioSdl
                { audioClockValid := true, videoClockValid := false, audioStartPts := 2,
                  videoStartPts := 0, avSyncOffset := 0, audioClock := 0,
                  audioWrittenBytes := 176400, volume := 100 }
                [] 0 []).2.2)) : ℤ) : ℚ) / 176400 := by
  have hv : (processAudioSdl
      { audioClockValid := true, videoClockValid := false, audioStartPts := 2,
        videoStartPts := 0, avSyncOffset := 0, audioClock := 0,
        audioWrittenBytes := 176400, volume := 100 }
      [] 0 []).1.audioClockValid = true := by
    norm_num [processAudioSdl, audioWriteLoop, maxQueuedBytes]
  exact ⟨hv, (C4_audio_clock_played_bytes _ [] 0 [] hv).1⟩

/-- C5: at end of stream the demux loop either (loop enabled) seeks back to
zero, enqueues a flush marker into both packet queues and continues without
emitting `endOfFile`, or (loop disabled) emits `endOfFile` and exits; any
other read error exits the loop without emitting `endOfFile`. -/
theorem C5_demux_eof (vIdx aIdx : ℤ) (st : DemuxState) :
    (demuxReadStep true vIdx aIdx st ReadResult.eof
      = ({ st with videoPacketQueue := st.videoPacketQueue ++ [none],
                   audioPacketQueue := st.audioPacketQueue ++ [none],
                   seekZeroCount := st.seekZeroCount + 1 },
         DemuxOutcome.continueLoop))
    ∧ (demuxReadStep true vIdx aIdx st ReadResult.eof).1.endOfFileEmitted
        = st.endOfFileEmitted
    ∧ (demuxReadStep false vIdx aIdx st ReadResult.eof
      = ({ st with endOfFileEmitted := true }, DemuxOutcome.exitLoop))
    ∧ (demuxReadStep false vIdx aIdx st ReadResult.eof).1.videoPacketQueue
        = st.videoPacketQueue
    ∧ (demuxReadStep false vIdx aIdx st ReadResult.eof).1.audioPacketQueue
        = st.audioPacketQueue
    ∧ ∀ loop : Bool,
        demuxReadStep loop vIdx aIdx st ReadResult.err = (st, DemuxOutcome.exitLoop) := by
  refine ⟨rfl, rfl, rfl, rfl, rfl, fun loop => ?_⟩
  cases loop <;> rfl

/-- C6 (amended): packet and frame enqueues are guarded so that, given the
wait loop's exit condition, the queue never grows beyond its capacity: the
demux thread enqueues a real packet only when `running ∧ ¬seeking` (freeing
it otherwise, with both queues untouched), and the video decode thread
enqueues a frame only when `running`.  The loop-wrap flush markers are
exempt from this guard (see the counterexample). -/
theorem C6_bounded_enqueue :
    (∀ (cap : ℕ) (vIdx aIdx : ℤ) (st : DemuxState) (loop : Bool),
      ¬(cap ≤ st.videoPacketQueue.length ∧ st.running = true ∧ st.seeking = false) →
      st.running = true → st.seeking = false →
      (demuxReadStep loop vIdx aIdx st (ReadResult.pkt vIdx)).1.videoPacketQueue
          = st.videoPacketQueue ++ [some vIdx]
      ∧ (demuxReadStep loop vIdx aIdx st
          (ReadResult.pkt vIdx)).1.videoPacketQueue.length ≤ cap)
    ∧ (∀ (cap : ℕ) (vIdx aIdx : ℤ) (st : DemuxState) (loop : Bool), aIdx ≠ vIdx →
      ¬(cap ≤ st.audioPacketQueue.length ∧ st.running = true ∧ st.seeking = false) →
      st.running = true → st.seeking = false →
      (demuxReadStep loop vIdx aIdx st (ReadResult.pkt aIdx)).1.audioPacketQueue
          = st.audioPacketQueue ++ [some aIdx]
      ∧ (demuxReadStep loop vIdx aIdx st
          (ReadResult.pkt aIdx)).1.audioPacketQueue.length ≤ cap)
    ∧ (∀ (vIdx aIdx i : ℤ) (st : DemuxState) (loop : Bool),
      ¬(st.running = true ∧ st.seeking = false) →
      (demuxReadStep loop vIdx aIdx st (ReadResult.pkt i)).1.videoPacketQueue
          = st.videoPacketQueue
      ∧ (demuxReadStep loop vIdx aIdx st (ReadResult.pkt i)).1.audioPacketQueue
          = st.audioPacketQueue
      ∧ (demuxReadStep loop vIdx aIdx st (ReadResult.pkt i)).1.freedPackets
          = st.freedPackets + 1)
    ∧ (∀ (running : Bool) (q : List ℚ) (pts : ℚ),
      ¬(MAX_FRAME_QUEUE ≤ q.length ∧ running = true) →
      (running = true →
        frameEnqueueStep running q pts = (q ++ [pts], true)
        ∧ (q ++ [pts]).length ≤ MAX_FRAME_QUEUE)
      ∧ (running = false → frameEnqueueStep running q pts = (q, false))) := by
  refine ⟨fun cap vIdx aIdx st loop hw hr hs => ?_,
          fun cap vIdx aIdx st loop hne hw hr hs => ?_,
          fun vIdx aIdx i st loop hflags => ?_,
          fun running q pts hw => ⟨fun hr => ?_, fun hr => ?_⟩⟩
  · have hlen : st.videoPacketQueue.length < cap := by
      rcases Nat.lt_or_ge st.videoPacketQueue.length cap with h | h
      · exact h
      · exact absurd ⟨h, hr, hs⟩ hw
    constructor
    · simp [demuxReadStep, hr, hs]
    · simp only [demuxReadStep, hr, hs]
      simp [List.length_append]
      omega
  · have hlen : st.audioPacketQueue.length < cap := by
      rcases Nat.lt_or_ge st.audioPacketQueue.length cap with h | h
      · exact h
      · exact absurd ⟨h, hr, hs⟩ hw
    constructor
    · simp [demuxReadStep, hne, hr, hs]
    · simp only [demuxReadStep]
      simp [hne, hr, hs, List.length_append]
      omega
  · have hg : ¬(st.running = true ∧ st.seeking = false) := hflags
    by_cases hv : i = vIdx
    · simp [demuxReadStep, hv, hg]
    · by_cases ha : i = aIdx
      · simp [demuxReadStep, hv, ha, hg]
      · simp [demuxReadStep, hv, ha]
  · have hlen : q.length < MAX_FRAME_QUEUE := by
      rcases Nat.lt_or_ge q.length MAX_FRAME_QUEUE with h | h
      · exact h
      · exact absurd ⟨h, hr⟩ hw
    constructor
    · simp [frameEnqueueStep, hr]
    · simp [List.length_append]
      omega
  · simp [frameEnqueueStep, hr]

/-- Witness for C6: an empty video packet queue under capacity 2 with
`running ∧ ¬seeking` accepts a packet and stays within bounds. -/
theorem C6_bounded_enqueue_witness :
    ¬((2 : ℕ) ≤ demuxIdleState.videoPacketQueue.length
      ∧ demuxIdleState.running = true ∧ demuxIdleState.seeking = false)
    ∧ (demuxReadStep false 0 1 demuxIdleState
        (ReadResult.pkt 0)).1.videoPacketQueue
      = demuxIdleState.videoPacketQueue ++ [some 0]
    ∧ (demuxReadStep false 0 1 demuxIdleState
        (ReadResult.pkt 0)).1.videoPacketQueue.length ≤ 2 := by
  have hw : ¬((2 : ℕ) ≤ demuxIdleState.videoPacketQueue.length
      ∧ demuxIdleState.running = true ∧ demuxIdleState.seeking = false) := by
    simp [demuxIdleState]
  have h := C6_bounded_enqueue.1 2 0 1 demuxIdleState false hw rfl rfl
  exact ⟨hw, h.1, h.2⟩

/-- Counterexample for C6 as stated: a video packet queue already at its
capacity (here 1) when the demuxer hits end of stream with loop enabled
receives the flush marker unconditionally and grows to length 2. -/
theorem C6_bounded_enqueue_counterexample :
    (demuxReadStep true 0 1 demuxFullState
        ReadResult.eof).1.videoPacketQueue.length = 2
    ∧ ¬((2 : ℕ) ≤ 1) := by
  exact ⟨rfl, by decide⟩

/-- A flagged buffer is never touched again by the volume block. -/
theorem volumeAdjustBuffer_flagged (v : ℤ) (ad : AudioData)
    (h : ad.volumeAdjusted = true) : volumeAdjustBuffer v ad = ad := by
  simp [volumeAdjustBuffer, h]

/-- A flagged buffer stays fixed under any further sequence of volume
blocks. -/
theorem foldl_volumeAdjust_flagged :
    ∀ (vs : List ℤ) (ad : AudioData), ad.volumeAdjusted = true →
      vs.foldl (fun a v => volumeAdjustBuffer v a) ad = ad := by
  intro vs
  induction vs with
  | nil => intro ad _; rfl
  | cons v rest ih =>
    intro ad h
    simp only [List.foldl_cons]
    rw [volumeAdjustBuffer_flagged v ad h]
    exact ih ad h

/-- C7: the volume block is idempotent over a buffer's lifetime: a flagged
buffer is left untouched, and a fresh buffer processed by any sequence of
ticks (with possibly changing volumes) either keeps its original samples or
has them scaled exactly once, by a single volume below 100. -/
theorem C7_volume_once :
    (∀ (v : ℤ) (ad : AudioData), ad.volumeAdjusted = true →
        volumeAdjustBuffer v ad = ad)
    ∧ (∀ (vs : List ℤ) (ad : AudioData), ad.volumeAdjusted = false →
        (vs.foldl (fun a v => volumeAdjustBuffer v a) ad).data = ad.data
        ∨ ∃ v ∈ vs, v < 100
            ∧ (vs.foldl (fun a v => volumeAdjustBuffer v a) ad).data
                = ad.data.map (scaleSample v)) := by
  refine ⟨fun v ad h => volumeAdjustBuffer_flagged v ad h, ?_⟩
  intro vs
  induction vs with
  | nil => intro ad _; left; rfl
  | cons v rest ih =>
    intro ad h
    by_cases hv : v < 100
    · right
      refine ⟨v, List.mem_cons_self v rest, hv, ?_⟩
      have hstep : volumeAdjustBuffer v ad
          = { ad with data := ad.data.map (scaleSample v), volumeAdjusted := true } := by
        simp [volumeAdjustBuffer, hv, h]
      simp only [List.foldl_cons, hstep]
      rw [foldl_volumeAdjust_flagged rest _ rfl]
    · have hstep : volumeAdjustBuffer v ad = ad := by
        simp [volumeAdjustBuffer, hv]
      simp only [List.foldl_cons, hstep]
      rcases ih ad h with hl | ⟨w, hw, hw100, hdata⟩
      · left; exact hl
      · right; exact ⟨w, List.mem_cons_of_mem v hw, hw100, hdata⟩

/-- Witness for C7: a fresh two-sample buffer processed by two ticks with
volumes 50 and then 30 is scaled exactly once, by 50. -/
theorem C7_volume_once_witness :
    (({ data := [100, -100], pts := 0, volumeAdjusted := false }
        : AudioData).volumeAdjusted = false)
    ∧ ((([50, 30] : List ℤ).foldl (fun a v => volumeAdjustBuffer v a)
          { data := [100, -100], pts := 0, volumeAdjusted := false }).data
        = ({ data := [100, -100], pts := 0, volumeAdjusted := false }
            : AudioData).data
      ∨ ∃ v ∈ ([50, 30] : List ℤ), v < 100
          ∧ (([50, 30] : List ℤ).foldl (fun a v => volumeAdjustBuffer v a)
              { data := [100, -100], pts := 0, volumeAdjusted := false }).data
            = ({ data := [100, -100], pts := 0, volumeAdjusted := false }
                : AudioData).data.map (scaleSample v)) :=
  ⟨rfl, C7_volume_once.2 [50, 30]
    { data := [100, -100], pts := 0, volumeAdjusted := false } rfl⟩

/-- Accounting invariants of the Qt write-retry loop under the device
contract: the offset stays nonnegative and offset plus remainder is
conserved. -/
theorem qtWriteLoop_spec :
    ∀ (oracle : List (ℤ × ℤ)) (offset remaining : ℤ),
      qtOracleOk oracle remaining = true → 0 ≤ offset → 0 ≤ remaining →
      0 ≤ (qtWriteLoop oracle offset remaining).1
      ∧ 0 ≤ (qtWriteLoop oracle offset remaining).2
      ∧ (qtWriteLoop oracle offset remaining).1
          + (qtWriteLoop oracle offset remaining).2 = offset + remaining := by
  intro oracle
  induction oracle with
  | nil =>
    intro offset remaining _ ho hr
    exact ⟨ho, hr, rfl⟩
  | cons p rest ih =>
    intro offset remaining hok ho hr
    obtain ⟨bytesFree, written⟩ := p
    simp only [qtOracleOk, Bool.and_eq_true, decide_eq_true_eq] at hok
    by_cases h1 : remaining ≤ 0
    · have he : qtWriteLoop ((bytesFree, written) :: rest) offset remaining
          = (offset, remaining) := by
        simp only [qtWriteLoop]
        rw [if_pos h1]
      rw [he]
      exact ⟨ho, hr, rfl⟩
    · by_cases h2 : bytesFree ≤ 0
      · have he : qtWriteLoop ((bytesFree, written) :: rest) offset remaining
            = (offset, remaining) := by
          simp only [qtWriteLoop]
          rw [if_neg h1, if_pos h2]
        rw [he]
        exact ⟨ho, hr, rfl⟩
      · by_cases h3 : written ≤ 0
        · have he : qtWriteLoop ((bytesFree, written) :: rest) offset remaining
              = (offset, remaining) := by
            simp only [qtWriteLoop]
            rw [if_neg h1, if_neg h2, if_pos h3]
          rw [he]
          exact ⟨ho, hr, rfl⟩
        · have he : qtWriteLoop ((bytesFree, written) :: rest) offset remaining
              = qtWriteLoop rest (offset + written) (remaining - written) := by
            simp only [qtWriteLoop]
            rw [if_neg h1, if_neg h2, if_neg h3]
          have hrec := ih (offset + written) (remaining - written) hok.2
            (by omega) (by omega)
          rw [he]
          exact ⟨hrec.1, hrec.2.1, by omega⟩

/-- C8 (amended, D3D11 Qt sink part): under the device contract, the Qt
audio sink accounts for every byte of the head buffer: a fully written
buffer is dequeued, and a partially written buffer stays at the head with
exactly the unwritten remainder of its bytes. -/
theorem C8_qt_partial_write_retained (ad : QtAudioBuffer)
    (rest : List QtAudioBuffer) (oracle : List (ℤ × ℤ))
    (hok : qtOracleOk oracle (ad.bytes.length : ℤ) = true) :
    ((qtWriteLoop oracle 0 (ad.bytes.length : ℤ)).1
        + (qtWriteLoop oracle 0 (ad.bytes.length : ℤ)).2 = (ad.bytes.length : ℤ))
    ∧ 0 ≤ (qtWriteLoop oracle 0 (ad.bytes.length : ℤ)).1
    ∧ ((qtWriteLoop oracle 0 (ad.bytes.length : ℤ)).2 = 0 →
        qtProcessHead ad rest oracle
          = (rest, (qtWriteLoop oracle 0 (ad.bytes.length : ℤ)).1))
    ∧ ((qtWriteLoop oracle 0 (ad.bytes.length : ℤ)).2 ≠ 0 →
        qtProcessHead ad rest oracle
          = ({ ad with bytes :=
                ad.bytes.drop (qtWriteLoop oracle 0 (ad.bytes.length : ℤ)).1.toNat }
              :: rest,
             (qtWriteLoop oracle 0 (ad.bytes.length : ℤ)).1)
        ∧ ((ad.bytes.drop
              (qtWriteLoop oracle 0 (ad.bytes.length : ℤ)).1.toNat).length : ℤ)
            = (qtWriteLoop oracle 0 (ad.bytes.length : ℤ)).2) := by
  obtain ⟨h1, h2, h3⟩ := qtWriteLoop_spec oracle 0 (ad.bytes.length : ℤ) hok
    le_rfl (Int.natCast_nonneg _)
  refine ⟨by omega, h1, fun hz => ?_, fun hnz => ⟨?_, ?_⟩⟩
  · simp [qtProcessHead, hz]
  · simp [qtProcessHead, hnz]
  · rw [List.length_drop]
    omega

/-- Witness for C8: a four-byte buffer of which the device accepts two
bytes stays at the head with its last two bytes. -/
theorem C8_qt_partial_write_retained_witness :
    qtOracleOk [((2 : ℤ), (2 : ℤ))]
        ((({ bytes := [1, 2, 3, 4], pts := 0, volumeAdjusted := true }
            : QtAudioBuffer).bytes.length : ℤ)) = true
    ∧ qtProcessHead
        { bytes := [1, 2, 3, 4], pts := 0, volumeAdjusted := true } []
        [((2 : ℤ), (2 : ℤ))]
      = ([{ bytes := [3, 4], pts := 0, volumeAdjusted := true }], 2) := by
  have hok : qtOracleOk [((2 : ℤ), (2 : ℤ))]
      ((({ bytes := [1, 2, 3, 4], pts := 0, volumeAdjusted := true }
          : QtAudioBuffer).bytes.length : ℤ)) = true := by decide
  have h := (C8_qt_partial_write_retained
    { bytes := [1, 2, 3, 4], pts := 0, volumeAdjusted := true } []
    [((2 : ℤ), (2 : ℤ))] hok).2.2.2 (by decide)
  exact ⟨hok, by rw [h.1]; decide⟩

/-- Counterexample for C8 as stated: the legacy `FFmpegPlayer` audio sink
ignores the byte count accepted by the device, so when the device accepts
two of a frame's four decoded bytes the tick completes with nothing
retained: the device received fewer bytes than were decoded. -/
theorem C8_ff_drops_remainder_counterexample :
    ffProcessAudio 100 [{ data := [1, 2], pts := 0 }] [2] 0 = (2, 1/44100)
    ∧ ffDecodedBytes [{ data := [1, 2], pts := 0 }] = 4
    ∧ (2 : ℤ) ≠ 4 := by
  refine ⟨?_, by norm_num [ffDecodedBytes], by decide⟩
  norm_num [ffProcessAudio]

/-- C9: on hardware-decoder initialization failure, Software mode never
attempts hardware init, Hardware-only mode turns the open into a failure
with an emitted error and a closed file, and Auto mode falls back to
software decoding and the open still succeeds with no error surfaced. -/
theorem C9_hw_decode_fallback :
    (∀ hwInitOk restOk : Bool,
        (openFileVideoInit DecodeMode.Software hwInitOk restOk).hwAttempted = false)
    ∧ (∀ restOk : Bool,
        openFileVideoInit DecodeMode.Hardware false restOk
          = ⟨false, true, true, true, false⟩)
    ∧ openFileVideoInit DecodeMode.Auto false true
        = ⟨true, false, false, true, false⟩ := by
  refine ⟨fun hw rest => ?_, fun rest => rfl, rfl⟩
  cases rest <;> rfl

/-- C10: calling play while playing and paused does not relaunch the worker
threads but resets the whole per-session sync state: both clock-valid flags
cleared, all clock and timing fields zeroed, `lastDelay` back to 33 ms and
the fast-render counter back to 0. -/
theorem C10_play_resume_resets (s : PlayerState) (hp : s.playing = true)
    (hq : s.paused = true) :
    (playCall s).threadStarts = s.threadStarts
    ∧ (playCall s).playing = true
    ∧ (playCall s).paused = false
    ∧ (playCall s).audioClockValid = false
    ∧ (playCall s).videoClockValid = false
    ∧ (playCall s).audioStartPts = 0
    ∧ (playCall s).videoStartPts = 0
    ∧ (playCall s).avSyncOffset = 0
    ∧ (playCall s).audioClock = 0
    ∧ (playCall s).audioWrittenBytes = 0
    ∧ (playCall s).frameTimer = 0
    ∧ (playCall s).lastFramePts = 0
    ∧ (playCall s).lastDelay = 33/1000
    ∧ (playCall s).consecutiveFastRender = 0 := by
  simp [playCall, hp, hq]

/-- Witness for C10: a paused playing session with seven recorded thread
launches keeps that count across a resume while its sync state resets. -/
theorem C10_play_resume_resets_witness :
    pausedPlayerState.playing = true
    ∧ pausedPlayerState.paused = true
    ∧ (playCall pausedPlayerState).threadStarts = pausedPlayerState.threadStarts
    ∧ (playCall pausedPlayerState).lastDelay = 33/1000 := by
  have h := C10_play_resume_resets pausedPlayerState rfl rfl
  exact ⟨rfl, rfl, h.1, h.2.2.2.2.2.2.2.2.2.2.2.2.1⟩

end Loop
